import Mathlib

/-
Verification of the backup/restore engine of the travelmanager repository
(src/services/backup_encryption.py and src/services/backup_service.py).

The development is a shallow embedding.  Byte strings are `List Nat`.  The two
cryptographic primitives taken from the external `cryptography` library are
modelled as ideal primitives, everything else is translated from the source:

* PBKDF2HMAC (`derive_key_from_password`) is modelled as an ideal key-derivation
  function: a concrete injective function of the pair (password, salt), standing
  in for the collision-free 32-byte key that PBKDF2 is relied upon to produce.

* Fernet authenticated encryption is modelled as an ideal authenticated cipher:
  the token records the key material and the message in a redundant, integrity
  checked layout, and decryption succeeds exactly on untampered tokens produced
  with the same key.  This captures the three properties the repository relies
  on (round trip, wrong-key rejection, tamper rejection) without modelling
  AES/HMAC bit-for-bit.
-/

namespace TravelBackup

/-- Constant from backup_encryption.py (OWASP 2023 recommendation); the ideal
KDF model does not iterate, the constant is recorded for fidelity. -/
def PBKDF2_ITERATIONS : Nat := 480000

/-- Constant SALT_LENGTH from backup_encryption.py. -/
def SALT_LENGTH : Nat := 16

/-- Byte encoding of a password string, standing in for `password.encode()`.
We use the character code points; the only property relied on is injectivity,
which the UTF-8 encoding also has. -/
def pwBytes (p : String) : List Nat := p.data.map Char.toNat

/-- Embeds `derive_key_from_password` of backup_encryption.py.  The PBKDF2
derivation is modelled as an ideal KDF: the resulting key bytes determine the
(password, salt) pair uniquely.  The length prefix makes the function injective
without any assumption on the salt length. -/
def derive_key_from_password (password : String) (salt : List Nat) : List Nat :=
  (pwBytes password).length :: (pwBytes password ++ salt)

/-- Ideal model of `Fernet(key).encrypt`: the token records the key material and
the message twice, in a self-describing layout.  The duplicated message plays
the role of Fernet's HMAC tag: decryption checks it, so any single-byte change
of a valid token is rejected. -/
def fernetEncrypt (key msg : List Nat) : List Nat :=
  key.length :: msg.length :: (key ++ (msg ++ msg))

/-- Ideal model of `Fernet(key).decrypt`: `none` models the `InvalidToken`
exception.  The key check models decryption with a wrong key failing; the
redundancy check models the HMAC integrity check. -/
def fernetDecrypt (key token : List Nat) : Option (List Nat) :=
  match token with
  | kl :: ml :: rest =>
    if kl = key.length ∧ rest.take key.length = key then
      let body := rest.drop key.length
      if body.length = ml + ml ∧ body.take ml = body.drop ml then
        some (body.take ml)
      else none
    else none
  | _ => none

/-- Embeds `encrypt_backup_archive` of backup_encryption.py.  The random salt
`os.urandom(SALT_LENGTH)` is passed as an explicit argument. -/
def encrypt_backup_archive (tarball_bytes : List Nat) (password : String)
    (salt : List Nat) : List Nat × List Nat :=
  (fernetEncrypt (derive_key_from_password password salt) tarball_bytes, salt)

/-- Embeds `decrypt_backup_archive` of backup_encryption.py; `none` models the
`InvalidToken` exception. -/
def decrypt_backup_archive (encrypted_bytes : List Nat) (password : String)
    (salt : List Nat) : Option (List Nat) :=
  fernetDecrypt (derive_key_from_password password salt) encrypted_bytes

/-- Embeds `try_decrypt_backup` of backup_encryption.py. -/
def try_decrypt_backup (encrypted_bytes : List Nat) (password : String)
    (salt : List Nat) : Bool × Option (List Nat) × String :=
  match decrypt_backup_archive encrypted_bytes password salt with
  | some decrypted => (true, some decrypted, "")
  | none => (false, none, "Invalid password or corrupted backup")

/-- Embeds `_extract_salt_and_data` of backup_service.py: salt is the first 16
bytes, the rest is the ciphertext. -/
def extract_salt_and_data (encrypted_bytes : List Nat) : List Nat × List Nat :=
  (encrypted_bytes.take 16, encrypted_bytes.drop 16)

/-
Structured level: backup_service.py.

The validator and the restore orchestrator parse the decrypted bytes as a
gzip-compressed tar archive and act on its contents.  Rather than modelling the
tar byte format, the payload is embedded structurally: an uploaded file is
either gzip-magic bytes (carrying a parsed tar payload, or `corrupt` when
`tarfile.open` raises `TarError`), or anything else, treated as a
password-protected envelope (salt-prefixed ciphertext).  By
`fernetDecrypt_complete`, an ideal-cipher ciphertext determines the key it was
produced under and its plaintext uniquely, so the envelope case is carried as
that key together with the payload its plaintext parses to; decryption with a
password succeeds exactly when the derived key matches.  Undecryptable junk
bytes are represented by a key outside the range of `derive_key_from_password`
(for example `[]`).

Database rows carry the columns that backup_service.py reads or writes; the
remaining ORM columns are never touched by the engine (rows are only copied,
deleted or re-pointed wholesale) and are omitted.
-/

/-- Row of the users table (columns used by the engine). -/
structure UserRow where
  id : String
  username : String
  email : String
  hashed_password : String
  role : String
  is_admin : Bool
  is_active : Bool
  full_name : Option String
  avatar_url : Option String
  use_gravatar : Bool
  created_at : String
  updated_at : String
deriving DecidableEq

/-- Row of the sessions table; the engine only deletes or copies session rows,
so only identifying columns are modelled. -/
structure SessionRow where
  id : String
  user_id : String
deriving DecidableEq

/-- Row of the events table; the engine only rewrites the user_id column. -/
structure EventRow where
  id : String
  user_id : String
deriving DecidableEq

/-- Ciphertext stored in integration_configs.config_encrypted.  The instance
key Fernet (src/encryption.py, key derived from settings.secret_key) is
modelled as an ideal cipher: the blob records the key it was encrypted under
and its plaintext. -/
structure EncBlob where
  key : String
  data : String
deriving DecidableEq

/-- Embeds `encrypt_config` of src/encryption.py (ideal-cipher model). -/
def encrypt_config (secretKey : String) (data : String) : EncBlob :=
  ⟨secretKey, data⟩

/-- Embeds `decrypt_config` of src/encryption.py; `none` models the exception
raised when the blob was encrypted under a different SECRET_KEY. -/
def decrypt_config (secretKey : String) (blob : EncBlob) : Option String :=
  if blob.key = secretKey then some blob.data else none

/-- Row of the integration_configs table. -/
structure ConfigRow where
  id : String
  integration_type : String
  name : String
  config_encrypted : Option EncBlob
  is_active : Bool
  created_by : String
  created_at : String
  updated_at : String
deriving DecidableEq

/-- Entry of integration_configs.json as written by
`_export_integration_configs`: the decrypted config map is carried as its JSON
text, `none` models `config_data: null`. -/
structure ConfigExport where
  id : String
  integration_type : String
  name : String
  config_data : Option String
  is_active : Bool
  created_by : String
  created_at : String
  updated_at : String
deriving DecidableEq

/-- The SQLite database content the engine touches. -/
structure Database where
  users : List UserRow
  sessions : List SessionRow
  events : List EventRow
  integration_configs : List ConfigRow
deriving DecidableEq

/-- Embeds `_export_integration_configs` of backup_service.py: every row is
exported; the config blob is decrypted under the current instance key, a row
whose blob fails to decrypt (or is empty) gets `config_data: null`. -/
def _export_integration_configs (db : Database) (secretKey : String) :
    List ConfigExport :=
  db.integration_configs.map (fun r =>
    ⟨r.id, r.integration_type, r.name,
      (match r.config_encrypted with
       | none => none
       | some blob => decrypt_config secretKey blob),
      r.is_active, r.created_by, r.created_at, r.updated_at⟩)

/-- Fields of manifest.json; every field is optional because the validator
parses untrusted JSON with `.get` defaulting. -/
structure ManifestJson where
  backup_format_version : Option String
  version : Option String
  created_at : Option String
  created_by : Option String
  db_size_bytes : Option Nat
  avatar_count : Option Nat
  checksum : Option String
  secret_key : Option String
  internal_backup : Option Bool
deriving DecidableEq

/-- Serialization helpers: a concrete injective-by-construction rendering of a
database as file bytes, standing in for the bytes of the SQLite file.  Only its
dependence on the full content matters (sizes and checksums are computed from
it); no inverse is ever needed. -/
def optStr : Option String → String
  | none => "-"
  | some s => "+" ++ s

def boolStr (b : Bool) : String := if b then "1" else "0"

def userRowStr (u : UserRow) : String :=
  String.intercalate ("|") [u.id, u.username, u.email, u.hashed_password, u.role,
    boolStr u.is_admin, boolStr u.is_active, optStr u.full_name,
    optStr u.avatar_url, boolStr u.use_gravatar, u.created_at, u.updated_at]

def sessionRowStr (s : SessionRow) : String :=
  String.intercalate ("|") [s.id, s.user_id]

def eventRowStr (e : EventRow) : String :=
  String.intercalate ("|") [e.id, e.user_id]

def configRowStr (r : ConfigRow) : String :=
  String.intercalate ("|") [r.id, r.integration_type, r.name,
    (match r.config_encrypted with
     | none => "-"
     | some b => "+" ++ b.key ++ ":" ++ b.data),
    boolStr r.is_active, r.created_by, r.created_at, r.updated_at]

def databaseStr (d : Database) : String :=
  String.intercalate (";") (d.users.map userRowStr)
    ++ "#" ++ String.intercalate (";") (d.sessions.map sessionRowStr)
    ++ "#" ++ String.intercalate (";") (d.events.map eventRowStr)
    ++ "#" ++ String.intercalate (";") (d.integration_configs.map configRowStr)

/-- The 15-byte literal `b"SQLite format 3"` checked by the validator. -/
def sqliteHeaderLit : List Nat := pwBytes ("SQLite format 3")

/-- The 16-byte header a real SQLite file starts with (the literal plus a NUL
byte). -/
def sqliteFileHeader : List Nat := sqliteHeaderLit ++ [0]

/-- File bytes of a database, for sizes and checksums. -/
def dbBytes (d : Database) : List Nat := sqliteFileHeader ++ pwBytes (databaseStr d)

/-- Ideal model of `hashlib.sha256(...).hexdigest()`: a concrete injective
rendering of the hashed bytes; collision freedom is the only property the
manifest checksum relies on. -/
def sha256hex (bs : List Nat) : String :=
  String.intercalate ("-") (bs.map toString)

/-- A database file on disk: its first bytes, its byte size and its content. -/
structure DbFile where
  header : List Nat
  size : Nat
  db : Database
deriving DecidableEq

/-- The database file produced by writing database `d` (sqlite3 .backup or
shutil.copy2 of such a file). -/
def dbFileOf (d : Database) : DbFile :=
  ⟨sqliteFileHeader, (dbBytes d).length, d⟩

/-- Contents of one top-level directory of an extracted archive. -/
structure BackupDirContents where
  manifest : Option ManifestJson
  dbFile : Option DbFile
  avatars : Option (List String)
  configsJson : Option (List ConfigExport)
deriving DecidableEq

/-- A parsed tar.gz stream: the member names the tar reports, and the top-level
directories (in extraction-iteration order) with their contents. -/
structure TarGz where
  memberNames : List String
  topDirs : List (String × BackupDirContents)
deriving DecidableEq

/-- Result of opening bytes as a gzip tar: a parsed archive, or `corrupt` when
`tarfile.open` raises `TarError`. -/
inductive Payload where
  | tar (t : TarGz)
  | corrupt
deriving DecidableEq

/-- An uploaded backup file, split by the gzip-magic test of
`_is_encrypted_backup`: bytes starting `1f 8b` are a plain tar.gz, anything
else is treated as a salt-prefixed ideal-cipher envelope (see the level note
above). -/
inductive UploadedFile where
  | plain (p : Payload)
  | encrypted (salt : List Nat) (key : List Nat) (p : Payload)
deriving DecidableEq

/-- Embeds `_is_encrypted_backup` of backup_service.py at the structured
level. -/
def is_encrypted_backup : UploadedFile → Bool
  | .plain _ => false
  | .encrypted _ _ _ => true

/-- Structured counterpart of `_extract_salt_and_data` + `try_decrypt_backup`
inside validate/restore: by the ideal-cipher completeness
(`fernetDecrypt_complete`) decryption succeeds exactly when the derived key
matches the key the envelope was produced under, and then yields its
payload. -/
def try_decrypt_upload (salt key : List Nat) (p : Payload) (password : String) :
    Option Payload :=
  if derive_key_from_password password salt = key then some p else none

/-- True when a list of consecutive characters contains two adjacent dots,
i.e. the Python test `".." in name`. -/
def hasParentSeg : List Char → Bool
  | [] => false
  | [_] => false
  | c1 :: c2 :: rest => (c1 == '.' && c2 == '.') || hasParentSeg (c2 :: rest)

/-- The member-name test of validate_backup line 241:
`member.name.startswith("/") or ".." in member.name` (the first test reads the
leading character). -/
def unsafeMemberName (name : String) : Bool :=
  (match name.data with
   | c :: _ => c == '/'
   | [] => false) || hasParentSeg name.data

/-- Constant BACKUP_FORMAT_VERSION of backup_service.py. -/
def BACKUP_FORMAT_VERSION : String := "0.2.2"

/-- The metadata dictionary validate_backup builds on success; for a
password-less probe of an encrypted backup the source returns a two-field
dictionary, modelled by the dedicated constructor. -/
structure FullMeta where
  backup_format_version : String
  created_at : String
  created_by : String
  db_size_bytes : Nat
  avatar_count : Nat
  checksum : String
  is_password_protected : Bool
  has_legacy_secret_key : Bool
  integration_config_count : Nat
deriving DecidableEq

inductive Metadata where
  | passwordRequired
  | full (m : FullMeta)
deriving DecidableEq

/-- The manifest-reading part of validate_backup (lines 259-302): a missing
manifest synthesizes minimal metadata plus a warning, a legacy secret_key
raises a flag plus a warning; `now` stands for `datetime.now(UTC)`. -/
def manifestMeta (c : BackupDirContents) (is_encrypted : Bool) (now : String) :
    FullMeta × List String :=
  match c.manifest with
  | none =>
    (⟨"unknown", now, "unknown", 0, 0, "", is_encrypted, false, 0⟩,
      ["No manifest.json found - backup may be from an older version"])
  | some md =>
    let fv := md.backup_format_version.getD (md.version.getD ("0.2.0"))
    let base : FullMeta :=
      ⟨fv, md.created_at.getD now, md.created_by.getD ("unknown"),
        md.db_size_bytes.getD 0, md.avatar_count.getD 0, md.checksum.getD "",
        is_encrypted, false, 0⟩
    match md.secret_key with
    | some _ =>
      ({base with has_legacy_secret_key := true},
        ["This is a legacy backup (v0.2.0). Consider creating a new password-protected backup for better security."])
    | none => (base, [])

/-- The payload part of validate_backup (lines 231-331), after the gzip bytes
are available: tar open, member-name guard before extraction, first top-level
directory, manifest, database file with SQLite header, recomputed sizes and
counts. -/
def validate_payload (is_encrypted : Bool) (p : Payload) (now : String) :
    Bool × String × Option Metadata × List String :=
  match p with
  | .corrupt => (false, "Invalid or corrupted backup file", none, [])
  | .tar t =>
    if t.memberNames.any unsafeMemberName then
      (false, "Invalid backup file: contains unsafe paths", none, [])
    else
      match t.topDirs with
      | [] => (false, "Backup archive is empty", none, [])
      | (_, c) :: _ =>
        let mw := manifestMeta c is_encrypted now
        match c.dbFile with
        | none => (false, "No database file found in backup", none, [])
        | some f =>
          if sqliteHeaderLit.isPrefixOf (f.header.take 16) then
            let meta : FullMeta :=
              {mw.1 with
                db_size_bytes := f.size,
                avatar_count :=
                  (match c.avatars with | some fs => fs.length | none => 0),
                integration_config_count :=
                  (match c.configsJson with | some cfgs => cfgs.length | none => 0)}
            (true, "Backup is valid", some (.full meta), mw.2)
          else (false, "Database file is not a valid SQLite database", none, [])

/-- Embeds `validate_backup` of backup_service.py.  A `none` or empty password
is falsy in Python (`if not password`). -/
def validate_backup_upload (file : UploadedFile) (password : Option String)
    (now : String) : Bool × String × Option Metadata × List String :=
  match file with
  | .plain p => validate_payload false p now
  | .encrypted salt key p =>
    match password with
    | none =>
      (false, "This backup is password-protected. Please provide the password.",
        some Metadata.passwordRequired, [])
    | some pw =>
      if pw = "" then
        (false, "This backup is password-protected. Please provide the password.",
          some Metadata.passwordRequired, [])
      else
        match try_decrypt_upload salt key p pw with
        | some q => validate_payload true q now
        | none => (false, "Invalid password or corrupted backup", none, [])

/-- The on-disk state backup_service.py touches: the live database file at
DB_PATH, the avatar directory (`none` = missing, `some files` = present), the
files of the pre-restore recovery directory, and the SECRET_KEY line of the
.env file (written only by `_update_env_secret_key`). -/
structure World where
  liveDb : Option DbFile
  avatarDir : Option (List String)
  preRestoreDir : List (String × TarGz)
  envSecretKey : Option String
deriving DecidableEq

/-- Ambient effects of one restore run: `now` stands for `datetime.now(UTC)`,
`snapshotOk`/`snapshotErr` for whether writing the pre-restore snapshot raises
(and the exception text), `migrationResult` for the outcome of the external
Alembic upgrade in `_run_migrations`, `secretKey` for `settings.secret_key`,
and `insertErrText` for the text of a database error raised while re-inserting
the admin row. -/
structure Env where
  now : String
  snapshotOk : Bool
  snapshotErr : String
  migrationResult : Bool × String
  secretKey : String
  insertErrText : String
deriving DecidableEq

/-- The `details` dictionary of perform_restore. -/
structure Details where
  migrations_run : Bool
  migrations_message : String
  configs_imported : Nat
deriving DecidableEq

/-- Result of perform_restore: the returned triple plus the final world, or an
uncaught exception escaping the function (`raised`), with the world at that
point. -/
inductive Outcome where
  | ret (success : Bool) (message : String) (details : Details) (world : World)
  | raised (world : World)
deriving DecidableEq

/-- The member names of a tarball built by `tar.add(backup_dir,
arcname=backup_name)`: the directory itself and its files (member order inside
the tar is irrelevant to the engine). -/
def archiveMembers (name : String) (c : BackupDirContents) : List String :=
  [name]
    ++ (match c.dbFile with
        | some _ => [name ++ ("/travel_manager.db")]
        | none => [])
    ++ (match c.avatars with
        | some fs => (name ++ ("/avatars")) :: fs.map (fun f => name ++ ("/avatars/") ++ f)
        | none => [])
    ++ (match c.manifest with
        | some _ => [name ++ ("/manifest.json")]
        | none => [])
    ++ (match c.configsJson with
        | some _ => [name ++ ("/integration_configs.json")]
        | none => [])

/-- The tarball with a single top-level directory `name` holding `c`. -/
def mkBackupTar (name : String) (c : BackupDirContents) : TarGz :=
  ⟨archiveMembers name c, [(name, c)]⟩

/-- Embeds `_create_unencrypted_backup` of backup_service.py: a full snapshot
of the live state (no user/session stripping, no config export), tarred with a
manifest carrying `internal_backup: true`. -/
def _create_unencrypted_backup (w : World) (username : String) (now : String) :
    TarGz :=
  let backup_name := "travel_manager_backup_" ++ now
  let dbf := w.liveDb.map (fun f => dbFileOf f.db)
  let avatars : Option (List String) :=
    match w.avatarDir with
    | some fs => if fs.isEmpty then none else some fs
    | none => none
  let db_size := match dbf with | some f => f.size | none => 0
  let avatar_count := match avatars with | some fs => fs.length | none => 0
  let checksum := match dbf with | some f => sha256hex (dbBytes f.db) | none => ""
  let manifest : ManifestJson :=
    ⟨some BACKUP_FORMAT_VERSION, none, some now, some username, some db_size,
      some avatar_count, some checksum, none, some true⟩
  mkBackupTar backup_name ⟨some manifest, dbf, avatars, none⟩

/-- The snapshot-directory part of `create_backup` (lines 109-168): the
tarball content before encryption.  When the database exists, the snapshot
copy is stripped of all user and session rows before configs are exported and
before the manifest (sizes, checksum) is computed from it. -/
def create_backup_payload (w : World) (username : String) (secretKey : String)
    (now : String) : TarGz :=
  let backup_name := "travel_manager_backup_" ++ now
  let avatars : Option (List String) :=
    match w.avatarDir with
    | some fs => if fs.isEmpty then none else some fs
    | none => none
  let avatar_count := match avatars with | some fs => fs.length | none => 0
  match w.liveDb with
  | some live =>
    let stripped : Database := {live.db with users := [], sessions := []}
    let configs := _export_integration_configs stripped secretKey
    let dbf := dbFileOf stripped
    let manifest : ManifestJson :=
      ⟨some BACKUP_FORMAT_VERSION, none, some now, some username, some dbf.size,
        some avatar_count, some (sha256hex (dbBytes stripped)), none, none⟩
    mkBackupTar backup_name ⟨some manifest, some dbf, avatars, some configs⟩
  | none =>
    let manifest : ManifestJson :=
      ⟨some BACKUP_FORMAT_VERSION, none, some now, some username, some 0,
        some avatar_count, some "", none, none⟩
    mkBackupTar backup_name ⟨some manifest, none, avatars, none⟩

/-- Embeds `create_backup` of backup_service.py.  The fresh random salt is an
explicit argument; the world is threaded through and returned to record that
creation only reads the live state (all writes go to a temporary directory);
the result is the salt-prefixed encrypted envelope around the payload
tarball. -/
def create_backup (w : World) (username password : String) (secretKey : String)
    (now : String) (salt : List Nat) : (UploadedFile × String) × World :=
  ((.encrypted salt (derive_key_from_password password salt)
      (.tar (create_backup_payload w username secretKey now)),
    ("travel_manager_backup_" ++ now) ++ (".tar.gz.enc")), w)

/-- One iteration of the import loop of `_import_integration_configs`: a row
without config_data is skipped, a row whose INSERT raises (duplicate primary
key) is skipped, otherwise the config is re-encrypted under the current
instance key and inserted with created_by rewritten to the admin. -/
def importStep (admin_id : String) (secretKey : String)
    (acc : Database × Nat) (c : ConfigExport) : Database × Nat :=
  match c.config_data with
  | none => acc
  | some data =>
    if acc.1.integration_configs.any (fun r => r.id == c.id) then acc
    else
      ({acc.1 with integration_configs := acc.1.integration_configs ++
          [⟨c.id, c.integration_type, c.name,
            some (encrypt_config secretKey data), c.is_active, admin_id,
            c.created_at, c.updated_at⟩]},
        acc.2 + 1)

/-- Embeds `_import_integration_configs` of backup_service.py: clear the table,
then run the import loop; returns the new database content and the imported
count. -/
def _import_integration_configs (db : Database) (configs : List ConfigExport)
    (admin_id : String) (secretKey : String) : Database × Nat :=
  configs.foldl (importStep admin_id secretKey)
    ({db with integration_configs := []}, 0)

/-- Embeds `_get_user_data` of backup_service.py: the admin row looked up in
the live database before restore; `none` both when the database is missing and
when no row matches. -/
def _get_user_data (w : World) (user_id : String) : Option UserRow :=
  match w.liveDb with
  | none => none
  | some f => f.db.users.find? (fun u => u.id == user_id)

/-- Embeds `_preserve_admin_user` of backup_service.py.  Note: this function is
defined in the source but never called from anywhere; perform_restore inlines a
variant that omits the user deletion and the session deletion.  Its INSERT
omits the full_name column and hard-codes role ADMIN. -/
def _preserve_admin_user (db : Database) (admin : UserRow) (now : String) :
    Database :=
  let adminRow : UserRow :=
    ⟨admin.id, admin.username, admin.email, admin.hashed_password, "ADMIN",
      true, true, none, admin.avatar_url, admin.use_gravatar, admin.created_at,
      now⟩
  {db with
    users := [adminRow],
    events := db.events.map (fun e => {e with user_id := admin.id}),
    integration_configs := db.integration_configs.map
      (fun r => {r with created_by := admin.id}),
    sessions := []}

/-- The note appended to the migrations message when a legacy secret key is
installed (perform_restore lines 666-669). -/
def legacyNote : String :=
  " Note: Legacy backup restored with original SECRET_KEY. Consider creating a new password-protected backup."

/-- The success message of perform_restore. -/
def restoreDoneMsg : String :=
  "Restore completed. Please restart the application to apply changes."

/-- The tail of perform_restore from the pre-restore snapshot on (lines
588-730), given the already-decrypted payload and the admin row captured from
the live database.  `raised` marks the places where the source would let an
exception escape; each of them is unreachable for inputs that passed
validation. -/
def restoreWithPayload (w : World) (env : Env) (p : Payload)
    (admin_data : Option UserRow) : Outcome :=
  let details0 : Details := ⟨false, "", 0⟩
  if ¬ env.snapshotOk then
    .ret false ("Failed to create pre-restore backup: " ++ env.snapshotErr)
      details0 w
  else
    let snap := _create_unencrypted_backup w ("system_pre_restore") env.now
    let w1 : World := {w with preRestoreDir :=
      w.preRestoreDir ++ [("pre_restore_" ++ env.now ++ (".tar.gz"), snap)]}
    match p with
    | .corrupt => .raised w1
    | .tar t =>
      match t.topDirs with
      | [] => .raised w1
      | (_, c) :: _ =>
        let integration_configs := c.configsJson.getD []
        let backup_secret_key : Option String :=
          match c.manifest with
          | none => none
          | some md => md.secret_key
        match c.dbFile with
        | none => .raised w1
        | some f =>
          let w2 : World := {w1 with liveDb := some f}
          let w3 : World :=
            match c.avatars with
            | some fs => {w2 with avatarDir := some fs}
            | none =>
              match w2.avatarDir with
              | some _ => {w2 with avatarDir := some []}
              | none => w2
          let d1 : Details :=
            ⟨env.migrationResult.1, env.migrationResult.2, 0⟩
          -- The `if integration_configs and admin_data / elif backup_secret_key`
          -- block (lines 649-669) updates the database file, the details dict
          -- and the .env secret in the same branches; the three outcomes are
          -- written as parallel matches over those branches.
          let f4 : DbFile :=
            match admin_data with
            | some a =>
              if integration_configs.isEmpty then f
              else
                {f with db := (_import_integration_configs f.db
                  integration_configs a.id env.secretKey).1}
            | none => f
          let d2 : Details :=
            match admin_data with
            | some a =>
              if integration_configs.isEmpty then
                match backup_secret_key with
                | some _ =>
                  {d1 with migrations_message := d1.migrations_message ++ legacyNote}
                | none => d1
              else
                {d1 with configs_imported := (_import_integration_configs f.db
                  integration_configs a.id env.secretKey).2}
            | none =>
              match backup_secret_key with
              | some _ =>
                {d1 with migrations_message := d1.migrations_message ++ legacyNote}
              | none => d1
          let envSec : Option String :=
            match admin_data with
            | some _ =>
              if integration_configs.isEmpty then
                match backup_secret_key with
                | some k => some k
                | none => w3.envSecretKey
              else w3.envSecretKey
            | none =>
              match backup_secret_key with
              | some k => some k
              | none => w3.envSecretKey
          let w4 : World := {w3 with liveDb := some f4, envSecretKey := envSec}
          match admin_data with
          | none => .ret true restoreDoneMsg d2 w4
          | some a =>
            if f4.db.users.any (fun u =>
                u.id == a.id || u.username == a.username || u.email == a.email) then
              .ret false
                ("Restore failed: could not restore admin user: " ++ env.insertErrText)
                d2 w4
            else
              let adminRow : UserRow :=
                ⟨a.id, a.username, a.email, a.hashed_password, a.role, true,
                  true, a.full_name, a.avatar_url, a.use_gravatar, a.created_at,
                  env.now⟩
              let newDb : Database :=
                {f4.db with
                  users := f4.db.users ++ [adminRow],
                  events := f4.db.events.map (fun e => {e with user_id := a.id}),
                  integration_configs := f4.db.integration_configs.map
                    (fun r => {r with created_by := a.id})}
              let w5 : World := {w4 with liveDb := some {f4 with db := newDb}}
              .ret true restoreDoneMsg d2 w5

/-- The admin-capture step of perform_restore (lines 562-567): `some admin`
when an admin row is to be preserved, `some none` when no current_user_id was
supplied (the step is skipped), `none` when the lookup fails (restore
aborts). -/
def adminLookup (w : World) (current_user_id : Option String) :
    Option (Option UserRow) :=
  match current_user_id with
  | none => some none
  | some uid =>
    match _get_user_data w uid with
    | none => none
    | some a => some (some a)

/-- Embeds `perform_restore` of backup_service.py (lines 541-730): capture the
admin row, validate, decrypt if necessary, then hand over to
`restoreWithPayload`. -/
def perform_restore (w : World) (env : Env) (file : UploadedFile)
    (password : Option String) (current_user_id : Option String) : Outcome :=
  let details0 : Details := ⟨false, "", 0⟩
  match adminLookup w current_user_id with
  | none =>
    .ret false ("Failed to get current user data for preservation") details0 w
  | some admin_data =>
    let v := validate_backup_upload file password env.now
    if ¬ v.1 then .ret false v.2.1 details0 w
    else
      match file with
      | .plain p => restoreWithPayload w env p admin_data
      | .encrypted salt key p =>
        match password with
        | none =>
          .ret false ("Password required for encrypted backup") details0 w
        | some pw =>
          if pw = "" then
            .ret false ("Password required for encrypted backup") details0 w
          else
            match try_decrypt_upload salt key p pw with
            | none =>
              .ret false ("Invalid password or corrupted backup") details0 w
            | some q => restoreWithPayload w env q admin_data

/-- Success flag of an outcome (an escaped exception is not a success). -/
def Outcome.successFlag : Outcome → Bool
  | .ret s _ _ _ => s
  | .raised _ => false

/-- Final world of an outcome. -/
def Outcome.resultWorld : Outcome → World
  | .ret _ _ _ w => w
  | .raised w => w

/-- Details of a returned outcome. -/
def Outcome.resultDetails : Outcome → Option Details
  | .ret _ _ d _ => some d
  | .raised _ => none

/-- User rows of the live database of a world. -/
def World.userRows (w : World) : List UserRow :=
  match w.liveDb with
  | some f => f.db.users
  | none => []

/-- Session rows of the live database of a world. -/
def World.sessionRows (w : World) : List SessionRow :=
  match w.liveDb with
  | some f => f.db.sessions
  | none => []

/-- Event rows of the live database of a world. -/
def World.eventRows (w : World) : List EventRow :=
  match w.liveDb with
  | some f => f.db.events
  | none => []

/-- Integration-config rows of the live database of a world. -/
def World.configRows (w : World) : List ConfigRow :=
  match w.liveDb with
  | some f => f.db.integration_configs
  | none => []

/-
Concrete sample data used by witnesses and counterexamples.
-/

/-- Sample administrator row present in the live database. -/
def adminRow0 : UserRow :=
  ⟨"a1", "admin", "admin@example.com", "hash1", "ADMIN", true, true, none, none,
    true, "t0", "t0"⟩

/-- Sample non-admin row, with id, username and email all distinct from
`adminRow0`. -/
def oldUser0 : UserRow :=
  ⟨"u9", "olduser", "old@example.com", "hash9", "USER", false, true, none, none,
    true, "t0", "t0"⟩

/-- Sample live database holding just the administrator. -/
def liveDb0 : Database := ⟨[adminRow0], [], [], []⟩

/-- Sample live world. -/
def liveWorld0 : World := ⟨some (dbFileOf liveDb0), some [], [], none⟩

/-- Sample benign environment: snapshot write succeeds, migrations succeed. -/
def env0 : Env :=
  ⟨"T", true, "", (true, "Migrations completed successfully"), "sk", "dberr"⟩

/-- Sample archive database: users and sessions empty (as create_backup
produces), one event owned by a foreign user. -/
def archiveDb0 : Database := ⟨[], [], [⟨"e1", "uX"⟩], []⟩

/-- Sample well-formed manifest. -/
def manifest0 : ManifestJson :=
  ⟨some "0.2.2", none, some "T", some "admin", none, none, none, none, none⟩

/-- Sample well-formed backup-directory contents. -/
def goodContents0 : BackupDirContents :=
  ⟨some manifest0, some (dbFileOf archiveDb0), none, none⟩

/-- A payload with two top-level directories; the first one is a well-formed
backup directory. -/
def twoDirTar : TarGz :=
  ⟨["b1", "b1/travel_manager.db", "b1/manifest.json", "b2"],
    [("b1", goodContents0), ("b2", ⟨none, none, none, none⟩)]⟩

/-- The payload perform_restore goes on to extract: its decryption logic
(lines 574-586) is identical to validation's; `none` when no or an empty
password is supplied for an envelope or the derived key does not match. -/
def decryptedPayload (file : UploadedFile) (password : Option String) :
    Option Payload :=
  match file with
  | .plain p => some p
  | .encrypted salt key p =>
    match password with
    | none => none
    | some pw => if pw = "" then none else try_decrypt_upload salt key p pw

/-- The extraction step of perform_restore (lines 608-609):
`tar.extractall(temp_dir)` writes every member of the tarball; no member-name
check and no extraction filter is applied at this point. -/
def restoreExtractedNames (t : TarGz) : List String := t.memberNames

/-- A payload whose member list contains a parent-directory traversal name,
wrapped around an otherwise well-formed backup directory. -/
def evilTar : TarGz :=
  ⟨["b", "b/../evil"], [("b", goodContents0)]⟩

/-- A well-formed plain (legacy unencrypted) upload around `goodContents0`. -/
def goodTar0 : TarGz := mkBackupTar ("b1") goodContents0

def goodFile0 : UploadedFile := .plain (.tar goodTar0)

/-- Environment in which writing the pre-restore snapshot raises. -/
def envBad : Env :=
  ⟨"T", false, "disk full", (true, "Migrations completed successfully"), "sk",
    "dberr"⟩

/-- An archive database carrying a foreign user row (as a legacy, pre-stripping
backup would). -/
def legacyUserDb0 : Database := ⟨[oldUser0], [], [⟨"e1", "u9"⟩], []⟩

/-- A plain archive around `legacyUserDb0`. -/
def legacyUserFile0 : UploadedFile :=
  .plain (.tar (mkBackupTar ("b1")
    ⟨some manifest0, some (dbFileOf legacyUserDb0), none, none⟩))

/-- An archive database carrying a session row (as a legacy, pre-stripping
backup would). -/
def sessDb0 : Database := ⟨[], [⟨"s1", "uX"⟩], [], []⟩

/-- A plain archive around `sessDb0`. -/
def sessFile0 : UploadedFile :=
  .plain (.tar (mkBackupTar ("b1")
    ⟨some manifest0, some (dbFileOf sessDb0), none, none⟩))

theorem char_toNat_injective : Function.Injective Char.toNat := by
  intro a b h
  apply Char.eq_of_val_eq
  apply UInt32.eq_of_toBitVec_eq
  exact BitVec.eq_of_toNat_eq h

theorem pwBytes_injective : Function.Injective pwBytes := by
  intro p q h
  unfold pwBytes at h
  have hd : p.data = q.data := List.map_injective_iff.mpr char_toNat_injective h
  cases p
  cases q
  simp_all

theorem derive_key_ne (P1 P2 : String) (salt : List Nat) (h : P1 ≠ P2) :
    derive_key_from_password P2 salt ≠ derive_key_from_password P1 salt := by
  intro he
  apply h
  unfold derive_key_from_password at he
  injection he with h1 h2
  have h3 := (List.append_inj h2 h1).1
  exact (pwBytes_injective h3).symm

theorem fernetDecrypt_fernetEncrypt (key m : List Nat) :
    fernetDecrypt key (fernetEncrypt key m) = some m := by
  unfold fernetEncrypt fernetDecrypt
  simp [List.take_left, List.drop_left]

theorem fernetDecrypt_wrong_key (key key2 m : List Nat) (hne : key2 ≠ key) :
    fernetDecrypt key2 (fernetEncrypt key m) = none := by
  unfold fernetEncrypt fernetDecrypt
  rcases eq_or_ne key.length key2.length with hl | hl
  · have ht : (key ++ (m ++ m)).take key2.length = key := by
      rw [← hl]
      exact List.take_left key (m ++ m)
    have hcond : ¬ (key.length = key2.length ∧
        (key ++ (m ++ m)).take key2.length = key2) := by
      rintro ⟨h1, h2⟩
      exact hne (by rw [← ht, h2])
    simp only [hcond, if_false, if_neg hcond]
  · have hcond : ¬ (key.length = key2.length ∧
        (key ++ (m ++ m)).take key2.length = key2) := by
      rintro ⟨h1, h2⟩
      exact hl h1
    simp only [hcond, if_false, if_neg hcond]

theorem fernetDecrypt_complete (key t m : List Nat)
    (h : fernetDecrypt key t = some m) : t = fernetEncrypt key m := by
  cases t with
  | nil => simp [fernetDecrypt] at h
  | cons kl t1 =>
    cases t1 with
    | nil => simp [fernetDecrypt] at h
    | cons ml rest =>
      simp only [fernetDecrypt] at h
      by_cases h1 : kl = key.length ∧ rest.take key.length = key
      · rw [if_pos h1] at h
        by_cases h2 : (rest.drop key.length).length = ml + ml ∧
            (rest.drop key.length).take ml = (rest.drop key.length).drop ml
        · rw [if_pos h2] at h
          have hm : m = (rest.drop key.length).take ml := by
            injection h with h
            exact h.symm
          have hmlen : m.length = ml := by
            rw [hm, List.length_take, h2.1]
            omega
          have hbody : rest.drop key.length = m ++ m := by
            conv_lhs => rw [← List.take_append_drop ml (rest.drop key.length)]
            rw [← h2.2, ← hm]
          have hrest : rest = key ++ (m ++ m) := by
            conv_lhs => rw [← List.take_append_drop key.length rest]
            rw [h1.2, hbody]
          unfold fernetEncrypt
          rw [h1.1, ← hmlen, hrest]
        · rw [if_neg h2] at h
          exact absurd h (by simp)
      · rw [if_neg h1] at h
        exact absurd h (by simp)

theorem fernetEncrypt_length (key m : List Nat) :
    (fernetEncrypt key m).length = 2 + key.length + (m.length + m.length) := by
  unfold fernetEncrypt
  simp
  omega

theorem fernetEncrypt_eq_append (key m : List Nat) :
    fernetEncrypt key m = ([key.length, m.length] ++ key) ++ (m ++ m) := by
  unfold fernetEncrypt
  simp

theorem fernetEncrypt_getElem_first (key m : List Nat) (j : Nat) (hj : j < m.length) :
    (fernetEncrypt key m)[2 + key.length + j]? = m[j]? := by
  rw [fernetEncrypt_eq_append]
  rw [List.getElem?_append_right (by simp; omega)]
  have h1 : 2 + key.length + j - ([key.length, m.length] ++ key).length = j := by
    simp
    omega
  rw [h1]
  exact List.getElem?_append_left hj

theorem fernetEncrypt_getElem_second (key m : List Nat) (j : Nat) (hj : j < m.length) :
    (fernetEncrypt key m)[2 + key.length + m.length + j]? = m[j]? := by
  rw [fernetEncrypt_eq_append]
  rw [List.getElem?_append_right (by simp; omega)]
  have h1 : 2 + key.length + m.length + j - ([key.length, m.length] ++ key).length
      = m.length + j := by
    simp
    omega
  rw [h1, List.getElem?_append_right (by omega)]
  have h2 : m.length + j - m.length = j := by omega
  rw [h2]

theorem fernetDecrypt_set_ne (key m : List Nat) (i v : Nat)
    (hi : i < (fernetEncrypt key m).length)
    (hv : (fernetEncrypt key m)[i]? ≠ some v) :
    fernetDecrypt key ((fernetEncrypt key m).set i v) = none := by
  cases hdec : fernetDecrypt key ((fernetEncrypt key m).set i v) with
  | none => rfl
  | some m2 =>
    exfalso
    have h2 := fernetDecrypt_complete key _ m2 hdec
    have hlen2 : m2.length = m.length := by
      have h3 := congrArg List.length h2
      rw [List.length_set, fernetEncrypt_length, fernetEncrypt_length] at h3
      omega
    have hne : m2 ≠ m := by
      intro he
      rw [he] at h2
      apply hv
      calc (fernetEncrypt key m)[i]?
          = ((fernetEncrypt key m).set i v)[i]? := by rw [h2]
        _ = some v := List.getElem?_set_self hi
    have hex : ∃ j : Nat, m[j]? ≠ m2[j]? := by
      by_contra hall
      push_neg at hall
      exact hne (List.ext_getElem?_iff.mpr hall).symm
    obtain ⟨j, hjne⟩ := hex
    have hj : j < m.length := by
      by_contra hge
      push_neg at hge
      apply hjne
      rw [List.getElem?_eq_none hge, List.getElem?_eq_none (by omega)]
    -- position of the first copy of byte j
    have hp1 : 2 + key.length + j = i := by
      by_contra hne1
      have ha : ((fernetEncrypt key m).set i v)[2 + key.length + j]?
          = (fernetEncrypt key m)[2 + key.length + j]? :=
        List.getElem?_set_ne (by omega)
      rw [h2, fernetEncrypt_getElem_first key m2 j (by omega),
        fernetEncrypt_getElem_first key m j hj] at ha
      exact hjne ha.symm
    -- position of the second copy of byte j
    have hp2 : 2 + key.length + m.length + j = i := by
      by_contra hne2
      have ha : ((fernetEncrypt key m).set i v)[2 + key.length + m.length + j]?
          = (fernetEncrypt key m)[2 + key.length + m.length + j]? :=
        List.getElem?_set_ne (by omega)
      rw [h2] at ha
      have hsec2 : (fernetEncrypt key m2)[2 + key.length + m.length + j]? = m2[j]? := by
        rw [← hlen2]
        exact fernetEncrypt_getElem_second key m2 j (by omega)
      rw [hsec2, fernetEncrypt_getElem_second key m j hj] at ha
      exact hjne ha.symm
    omega

/-- C1: encryption round trip.  For every plaintext A, password P and 16-byte
salt, the envelope built by prepending the salt to the ciphertext (as
create_backup does) splits by taking the first 16 bytes back into the salt and
the ciphertext (_extract_salt_and_data), and decrypting the ciphertext with the
same password and that salt returns exactly A. -/
theorem backup_encrypt_roundtrip (A : List Nat) (P : String) (salt : List Nat)
    (hsalt : salt.length = 16) :
    extract_salt_and_data (salt ++ (encrypt_backup_archive A P salt).1)
        = (salt, (encrypt_backup_archive A P salt).1) ∧
    decrypt_backup_archive (encrypt_backup_archive A P salt).1 P salt = some A := by
  constructor
  · unfold extract_salt_and_data
    rw [← hsalt, List.take_left, List.drop_left]
  · unfold decrypt_backup_archive encrypt_backup_archive
    exact fernetDecrypt_fernetEncrypt _ _

theorem backup_encrypt_roundtrip_witness :
    extract_salt_and_data
        (List.replicate 16 0 ++ (encrypt_backup_archive [7, 8] ("pw")
          (List.replicate 16 0)).1)
      = (List.replicate 16 0, (encrypt_backup_archive [7, 8] ("pw")
          (List.replicate 16 0)).1) ∧
    decrypt_backup_archive (encrypt_backup_archive [7, 8] ("pw")
        (List.replicate 16 0)).1 ("pw") (List.replicate 16 0) = some [7, 8] :=
  backup_encrypt_roundtrip [7, 8] ("pw") (List.replicate 16 0) (by decide)

/-- C2: wrong-password and tamper rejection.  Decrypting a ciphertext produced
under password P1 with a different password P2 yields the structured failure
(false, none, "Invalid password or corrupted backup"), and so does decrypting
any ciphertext in which one byte has been replaced by a different value; the
message is identical in both cases. -/
theorem backup_decrypt_rejects (A : List Nat) (P1 P2 : String) (salt : List Nat)
    (i v : Nat) :
    (P1 ≠ P2 →
      try_decrypt_backup (encrypt_backup_archive A P1 salt).1 P2 salt
        = (false, none, "Invalid password or corrupted backup")) ∧
    (i < (encrypt_backup_archive A P1 salt).1.length →
      (encrypt_backup_archive A P1 salt).1[i]? ≠ some v →
      try_decrypt_backup ((encrypt_backup_archive A P1 salt).1.set i v) P1 salt
        = (false, none, "Invalid password or corrupted backup")) := by
  constructor
  · intro hne
    unfold try_decrypt_backup decrypt_backup_archive encrypt_backup_archive
    rw [fernetDecrypt_wrong_key _ _ _ (derive_key_ne P1 P2 salt hne)]
  · intro hi hv
    unfold try_decrypt_backup decrypt_backup_archive encrypt_backup_archive
    rw [fernetDecrypt_set_ne _ _ _ _ hi hv]

theorem backup_decrypt_rejects_witness :
    try_decrypt_backup (encrypt_backup_archive [7] ("a") []).1 ("b") []
        = (false, none, "Invalid password or corrupted backup") ∧
    try_decrypt_backup ((encrypt_backup_archive [7] ("a") []).1.set 0 99) ("a") []
        = (false, none, "Invalid password or corrupted backup") := by
  have h := backup_decrypt_rejects [7] ("a") ("b") [] 0 99
  exact ⟨h.1 (by decide), h.2 (by decide) (by decide)⟩

/-- C7: creation-time identity stripping.  Whenever the live database exists,
the archive produced by create_backup carries a database copy whose users and
sessions tables are empty while the other tables are those of the live copy,
the manifest checksum and size are computed from that stripped copy, and the
live world is returned unchanged. -/
theorem create_backup_strips_identity
    (w : World) (live : DbFile) (username password secretKey now : String)
    (salt : List Nat) (hdb : w.liveDb = some live) :
    ∃ (name : String) (c : BackupDirContents) (f : DbFile) (m : ManifestJson),
      (create_backup w username password secretKey now salt).1.1
          = .encrypted salt (derive_key_from_password password salt)
              (.tar (mkBackupTar name c)) ∧
      c.dbFile = some f ∧
      f.db.users = [] ∧
      f.db.sessions = [] ∧
      f.db.events = live.db.events ∧
      f.db.integration_configs = live.db.integration_configs ∧
      c.manifest = some m ∧
      m.checksum = some (sha256hex (dbBytes f.db)) ∧
      m.db_size_bytes = some ((dbBytes f.db).length) ∧
      (create_backup w username password secretKey now salt).2 = w := by
  unfold create_backup create_backup_payload
  rw [hdb]
  exact ⟨_, _, _, _, rfl, rfl, rfl, rfl, rfl, rfl, rfl, rfl, rfl, rfl⟩

theorem create_backup_strips_identity_witness :
    ∃ (name : String) (c : BackupDirContents) (f : DbFile) (m : ManifestJson),
      (create_backup liveWorld0 ("admin") ("pw") ("sk") ("T") []).1.1
          = .encrypted [] (derive_key_from_password ("pw") [])
              (.tar (mkBackupTar name c)) ∧
      c.dbFile = some f ∧
      f.db.users = [] ∧
      f.db.sessions = [] ∧
      f.db.events = (dbFileOf liveDb0).db.events ∧
      f.db.integration_configs = (dbFileOf liveDb0).db.integration_configs ∧
      c.manifest = some m ∧
      m.checksum = some (sha256hex (dbBytes f.db)) ∧
      m.db_size_bytes = some ((dbBytes f.db).length) ∧
      (create_backup liveWorld0 ("admin") ("pw") ("sk") ("T") []).2 = liveWorld0 :=
  create_backup_strips_identity liveWorld0 (dbFileOf liveDb0) ("admin") ("pw")
    ("sk") ("T") [] rfl

/-- C9 counterexample: a payload with two top-level directories is accepted by
validate_backup (the source takes `subdirs[0]` and never checks that the
directory is unique), contradicting the claim that any number of top-level
directories other than one makes the archive invalid. -/
theorem validate_two_topdirs_accepted :
    twoDirTar.topDirs.length = 2 ∧
    (validate_backup_upload (.plain (.tar twoDirTar)) none ("T")).1 = true :=
  ⟨rfl, rfl⟩

/-- C9 (amended): validate_backup requires at least one top-level directory
(zero yields the invalid result "Backup archive is empty"); top-level
directories after the first are ignored; the first directory must contain a
travel_manager.db starting with the SQLite header literal, a missing database
or a bad header is invalid; a missing manifest.json is a warning, not a
failure, and yields synthesized minimal metadata. -/
theorem validate_structural_requirements
    (names : List String) (pw : Option String) (now : String)
    (nm : String) (c : BackupDirContents)
    (rest : List (String × BackupDirContents))
    (hsafe : names.any unsafeMemberName = false) :
    (validate_backup_upload (.plain (.tar ⟨names, []⟩)) pw now
        = (false, "Backup archive is empty", none, [])) ∧
    (validate_backup_upload (.plain (.tar ⟨names, (nm, c) :: rest⟩)) pw now
        = validate_backup_upload (.plain (.tar ⟨names, [(nm, c)]⟩)) pw now) ∧
    (c.dbFile = none →
      validate_backup_upload (.plain (.tar ⟨names, (nm, c) :: rest⟩)) pw now
        = (false, "No database file found in backup", none, [])) ∧
    (∀ f : DbFile, c.dbFile = some f →
      sqliteHeaderLit.isPrefixOf (f.header.take 16) = false →
      validate_backup_upload (.plain (.tar ⟨names, (nm, c) :: rest⟩)) pw now
        = (false, "Database file is not a valid SQLite database", none, [])) ∧
    (∀ f : DbFile, c.dbFile = some f → c.manifest = none →
      sqliteHeaderLit.isPrefixOf (f.header.take 16) = true →
      validate_backup_upload (.plain (.tar ⟨names, (nm, c) :: rest⟩)) pw now
        = (true, "Backup is valid",
            some (.full ⟨"unknown", now, "unknown", f.size,
              (match c.avatars with | some fs => fs.length | none => 0), "",
              false, false,
              (match c.configsJson with | some cfgs => cfgs.length | none => 0)⟩),
            ["No manifest.json found - backup may be from an older version"])) := by
  refine ⟨?_, rfl, ?_, ?_, ?_⟩
  · unfold validate_backup_upload validate_payload
    simp [hsafe]
  · intro hnone
    unfold validate_backup_upload validate_payload
    simp [hsafe, hnone]
  · intro f hsome hbad
    unfold validate_backup_upload validate_payload
    simp [hsafe, hsome, hbad]
  · intro f hsome hman hgood
    unfold validate_backup_upload validate_payload manifestMeta
    simp [hsafe, hsome, hman, hgood]

theorem validate_structural_requirements_witness :
    (validate_backup_upload (.plain (.tar ⟨["b1"], []⟩)) none ("T")
        = (false, "Backup archive is empty", none, [])) ∧
    (validate_backup_upload (.plain (.tar ⟨["b1"], ("b1", goodContents0) :: []⟩)) none ("T")
        = validate_backup_upload (.plain (.tar ⟨["b1"], [("b1", goodContents0)]⟩)) none ("T")) ∧
    (goodContents0.dbFile = none →
      validate_backup_upload (.plain (.tar ⟨["b1"], ("b1", goodContents0) :: []⟩)) none ("T")
        = (false, "No database file found in backup", none, [])) ∧
    (∀ f : DbFile, goodContents0.dbFile = some f →
      sqliteHeaderLit.isPrefixOf (f.header.take 16) = false →
      validate_backup_upload (.plain (.tar ⟨["b1"], ("b1", goodContents0) :: []⟩)) none ("T")
        = (false, "Database file is not a valid SQLite database", none, [])) ∧
    (∀ f : DbFile, goodContents0.dbFile = some f → goodContents0.manifest = none →
      sqliteHeaderLit.isPrefixOf (f.header.take 16) = true →
      validate_backup_upload (.plain (.tar ⟨["b1"], ("b1", goodContents0) :: []⟩)) none ("T")
        = (true, "Backup is valid",
            some (.full ⟨"unknown", "T", "unknown", f.size,
              (match goodContents0.avatars with | some fs => fs.length | none => 0), "",
              false, false,
              (match goodContents0.configsJson with | some cfgs => cfgs.length | none => 0)⟩),
            ["No manifest.json found - backup may be from an older version"])) :=
  validate_structural_requirements ["b1"] none ("T") ("b1") goodContents0 []
    (by decide)

theorem validate_payload_valid_safe (e : Bool) (t : TarGz) (now : String)
    (h : (validate_payload e (.tar t) now).1 = true) :
    t.memberNames.any unsafeMemberName = false := by
  unfold validate_payload at h
  cases hany : t.memberNames.any unsafeMemberName with
  | false => rfl
  | true => simp [hany] at h

/-- C3 (amended): validation iterates every member name before extracting and
rejects the archive with the unsafe-paths message when any name is absolute or
contains a parent-directory segment; the restore path performs no member-name
guard of its own at its extraction (see `restoreExtractedNames` and the
counterexample), but every payload it extracts has passed validation, whose
guard guarantees that all member names are safe. -/
theorem validate_rejects_unsafe_paths (t : TarGz) (file : UploadedFile)
    (password : Option String) (now : String) :
    (t.memberNames.any unsafeMemberName = true →
      decryptedPayload file password = some (.tar t) →
      validate_backup_upload file password now
        = (false, "Invalid backup file: contains unsafe paths", none, [])) ∧
    ((validate_backup_upload file password now).1 = true →
      decryptedPayload file password = some (.tar t) →
      ∀ n ∈ t.memberNames, unsafeMemberName n = false) := by
  constructor
  · intro hany hdec
    cases file with
    | plain p =>
      have hp : p = .tar t := by
        simpa [decryptedPayload] using hdec
      subst hp
      unfold validate_backup_upload validate_payload
      simp [hany]
    | encrypted salt key p =>
      cases password with
      | none => simp [decryptedPayload] at hdec
      | some pw =>
        by_cases hpw : pw = ""
        · simp [decryptedPayload, hpw] at hdec
        · unfold decryptedPayload try_decrypt_upload at hdec
          by_cases hk : derive_key_from_password pw salt = key
          · have hp : p = .tar t := by
              simp [hpw, hk] at hdec
              exact hdec
            subst hp
            unfold validate_backup_upload try_decrypt_upload validate_payload
            simp [hpw, hk, hany]
          · simp [hpw, hk] at hdec
  · intro hvalid hdec
    have hsafe : t.memberNames.any unsafeMemberName = false := by
      cases file with
      | plain p =>
        have hp : p = .tar t := by
          simpa [decryptedPayload] using hdec
        subst hp
        exact validate_payload_valid_safe false t now hvalid
      | encrypted salt key p =>
        cases password with
        | none => simp [decryptedPayload] at hdec
        | some pw =>
          by_cases hpw : pw = ""
          · simp [decryptedPayload, hpw] at hdec
          · unfold decryptedPayload try_decrypt_upload at hdec
            by_cases hk : derive_key_from_password pw salt = key
            · have hp : p = .tar t := by
                simp [hpw, hk] at hdec
                exact hdec
              subst hp
              unfold validate_backup_upload try_decrypt_upload at hvalid
              simp only [hpw, hk] at hvalid
              refine validate_payload_valid_safe true t now ?_
              simpa using hvalid
            · simp [hpw, hk] at hdec
    intro n hn
    cases hu : unsafeMemberName n with
    | false => rfl
    | true =>
      exfalso
      have : t.memberNames.any unsafeMemberName = true :=
        List.any_eq_true.mpr ⟨n, hn, hu⟩
      rw [this] at hsafe
      exact Bool.noConfusion hsafe

theorem validate_rejects_unsafe_paths_witness :
    validate_backup_upload (.plain (.tar evilTar)) none ("T")
        = (false, "Invalid backup file: contains unsafe paths", none, []) ∧
    (∀ n ∈ twoDirTar.memberNames, unsafeMemberName n = false) := by
  constructor
  · exact (validate_rejects_unsafe_paths evilTar (.plain (.tar evilTar))
      none ("T")).1 (by decide) rfl
  · exact (validate_rejects_unsafe_paths twoDirTar (.plain (.tar twoDirTar))
      none ("T")).2 (by decide) rfl

/-- C3 counterexample: the extraction step of the restore path applies no
member-name guard: handed a tarball with a traversal member it writes that
member, and the restore tail run directly on such a payload completes with
success instead of rejecting it.  (Such a payload is stopped earlier, at
validation, which is why the amended claim survives end to end.) -/
theorem restore_extraction_has_no_guard :
    (restoreExtractedNames evilTar).any unsafeMemberName = true ∧
    (restoreWithPayload liveWorld0 env0 (.tar evilTar) none).successFlag = true := by
  constructor
  · decide
  · rfl

theorem restoreWithPayload_snapshot_fail (w : World) (env : Env) (p : Payload)
    (admin : Option UserRow) (h : env.snapshotOk = false) :
    restoreWithPayload w env p admin
      = .ret false ("Failed to create pre-restore backup: " ++ env.snapshotErr)
          ⟨false, "", 0⟩ w := by
  unfold restoreWithPayload
  simp [h]

theorem restoreWithPayload_preRestore (w : World) (env : Env) (p : Payload)
    (admin : Option UserRow) (hs : env.snapshotOk = true) :
    (restoreWithPayload w env p admin).resultWorld.preRestoreDir
      = w.preRestoreDir
        ++ [("pre_restore_" ++ env.now ++ (".tar.gz"),
             _create_unencrypted_backup w ("system_pre_restore") env.now)] := by
  unfold restoreWithPayload
  simp only [hs, not_true_eq_false, Bool.false_eq_true, if_false]
  repeat' split
  all_goals rfl

theorem perform_restore_shape (w : World) (env : Env) (file : UploadedFile)
    (password current_user_id : Option String) :
    (∃ m : String, perform_restore w env file password current_user_id
        = .ret false m ⟨false, "", 0⟩ w) ∨
    (∃ (p : Payload) (admin : Option UserRow),
      adminLookup w current_user_id = some admin ∧
      decryptedPayload file password = some p ∧
      perform_restore w env file password current_user_id
        = restoreWithPayload w env p admin) := by
  unfold perform_restore
  cases hadm : adminLookup w current_user_id with
  | none => exact Or.inl ⟨_, rfl⟩
  | some admin =>
    by_cases hv : (validate_backup_upload file password env.now).1 = true
    · cases file with
      | plain p =>
        right
        exact ⟨p, admin, rfl, rfl, by simp [hv]⟩
      | encrypted salt key p =>
        cases password with
        | none =>
          left
          refine ⟨("Password required for encrypted backup"), ?_⟩
          simp [hv]
        | some pw =>
          by_cases hpw : pw = ""
          · subst hpw
            left
            refine ⟨("Password required for encrypted backup"), ?_⟩
            simp [hv]
          · cases hdec : try_decrypt_upload salt key p pw with
            | none =>
              left
              refine ⟨("Invalid password or corrupted backup"), ?_⟩
              simp [hv, hpw, hdec]
            | some q =>
              right
              exact ⟨q, admin, rfl, by simp [decryptedPayload, hpw, hdec],
                by simp [hv, hpw, hdec]⟩
    · left
      refine ⟨(validate_backup_upload file password env.now).2.1, ?_⟩
      simp [hv]

/-- C5: safety-net precondition.  Part one: whenever writing the pre-restore
snapshot raises (and, a fortiori, whenever the run fails before reaching any
destructive step), perform_restore returns failure with the initial details and
the world — live database, avatar directory, recovery directory — unchanged.
Part two: every successful restore has first persisted the timestamped
unencrypted snapshot of the original live state into the recovery
directory. -/
theorem restore_safety_net (w : World) (env : Env) (file : UploadedFile)
    (password current_user_id : Option String) :
    (env.snapshotOk = false →
      ∃ m : String, perform_restore w env file password current_user_id
        = .ret false m ⟨false, "", 0⟩ w) ∧
    (∀ (m : String) (d : Details) (w1 : World),
      perform_restore w env file password current_user_id = .ret true m d w1 →
      w1.preRestoreDir = w.preRestoreDir
        ++ [("pre_restore_" ++ env.now ++ (".tar.gz"),
             _create_unencrypted_backup w ("system_pre_restore") env.now)]) := by
  constructor
  · intro hsf
    rcases perform_restore_shape w env file password current_user_id with
      ⟨m, hm⟩ | ⟨p, admin, _, _, hr⟩
    · exact ⟨m, hm⟩
    · rw [hr]
      exact ⟨_, restoreWithPayload_snapshot_fail w env p admin hsf⟩
  · intro m d w1 h
    rcases perform_restore_shape w env file password current_user_id with
      ⟨m2, hm⟩ | ⟨p, admin, _, _, hr⟩
    · rw [hm] at h
      exact absurd h (by simp)
    · rw [hr] at h
      cases hs : env.snapshotOk with
      | false =>
        rw [restoreWithPayload_snapshot_fail w env p admin hs] at h
        exact absurd h (by simp)
      | true =>
        have hp := restoreWithPayload_preRestore w env p admin hs
        rw [h] at hp
        exact hp

theorem restore_safety_net_witness :
    (∃ m : String, perform_restore liveWorld0 envBad goodFile0 none (some ("a1"))
        = .ret false m ⟨false, "", 0⟩ liveWorld0) ∧
    ((perform_restore liveWorld0 env0 goodFile0 none
        (some ("a1"))).resultWorld.preRestoreDir
      = liveWorld0.preRestoreDir
        ++ [("pre_restore_" ++ env0.now ++ (".tar.gz"),
             _create_unencrypted_backup liveWorld0 ("system_pre_restore")
               env0.now)]) := by
  constructor
  · exact (restore_safety_net liveWorld0 envBad goodFile0 none (some ("a1"))).1 rfl
  · have h2 := (restore_safety_net liveWorld0 env0 goodFile0 none (some ("a1"))).2
    have hflag : (perform_restore liveWorld0 env0 goodFile0 none
        (some ("a1"))).successFlag = true := by rfl
    cases hout : perform_restore liveWorld0 env0 goodFile0 none (some ("a1")) with
    | raised w1 =>
      rw [hout] at hflag
      exact absurd hflag (by simp [Outcome.successFlag])
    | ret s m d w1 =>
      rw [hout] at hflag
      have hs : s = true := by simpa [Outcome.successFlag] using hflag
      subst hs
      have hpre := h2 m d w1 hout
      simpa [Outcome.resultWorld] using hpre

theorem restoreWithPayload_migration_independent (w : World) (env : Env)
    (mr1 mr2 : Bool × String) (p : Payload) (admin : Option UserRow) :
    ((restoreWithPayload w {env with migrationResult := mr1} p admin).successFlag
      = (restoreWithPayload w {env with migrationResult := mr2} p admin).successFlag) ∧
    ((restoreWithPayload w {env with migrationResult := mr1} p admin).resultWorld
      = (restoreWithPayload w {env with migrationResult := mr2} p admin).resultWorld) := by
  cases hs : env.snapshotOk with
  | false =>
    rw [restoreWithPayload_snapshot_fail w
        ⟨env.now, false, env.snapshotErr, mr1, env.secretKey, env.insertErrText⟩
        p admin rfl,
      restoreWithPayload_snapshot_fail w
        ⟨env.now, false, env.snapshotErr, mr2, env.secretKey, env.insertErrText⟩
        p admin rfl]
    exact ⟨rfl, rfl⟩
  | true =>
    unfold restoreWithPayload
    dsimp only
    simp only [hs, not_true_eq_false, Bool.false_eq_true, if_false]
    constructor
    · repeat' split
      all_goals rfl
    · repeat' split
      all_goals rfl

theorem restoreWithPayload_details (w : World) (env : Env) (p : Payload)
    (admin : Option UserRow) (m : String) (d : Details) (w1 : World)
    (h : restoreWithPayload w env p admin = .ret true m d w1) :
    d.migrations_run = env.migrationResult.1 ∧
    (d.migrations_message = env.migrationResult.2 ∨
      d.migrations_message = env.migrationResult.2 ++ legacyNote) := by
  unfold restoreWithPayload at h
  cases hs : env.snapshotOk with
  | false =>
    simp only [hs, Bool.false_eq_true, not_false_eq_true, if_true] at h
    exact absurd h (by simp)
  | true =>
    simp only [hs, not_true_eq_false, Bool.false_eq_true, if_false] at h
    repeat' split at h
    all_goals try (injection h; subst_vars)
    all_goals
      first
      | exact ⟨rfl, Or.inl rfl⟩
      | exact ⟨rfl, Or.inr rfl⟩
      | simp_all

theorem perform_restore_migration_independent (w : World) (env : Env)
    (mr1 mr2 : Bool × String) (file : UploadedFile)
    (password current_user_id : Option String) :
    ((perform_restore w {env with migrationResult := mr1} file password
        current_user_id).successFlag
      = (perform_restore w {env with migrationResult := mr2} file password
        current_user_id).successFlag) ∧
    ((perform_restore w {env with migrationResult := mr1} file password
        current_user_id).resultWorld
      = (perform_restore w {env with migrationResult := mr2} file password
        current_user_id).resultWorld) := by
  have hrw := restoreWithPayload_migration_independent w env mr1 mr2
  unfold perform_restore
  dsimp only
  cases hadm : adminLookup w current_user_id with
  | none => exact ⟨rfl, rfl⟩
  | some admin =>
    by_cases hv : (validate_backup_upload file password env.now).1 = true
    · simp only [hv, not_true_eq_false, Bool.false_eq_true, if_false]
      cases file with
      | plain p => exact hrw p admin
      | encrypted salt key p =>
        cases password with
        | none => exact ⟨rfl, rfl⟩
        | some pw =>
          by_cases hpw : pw = ""
          · subst hpw
            simp
          · dsimp only
            rw [if_neg hpw, if_neg hpw]
            cases hdec : try_decrypt_upload salt key p pw with
            | none => exact ⟨rfl, rfl⟩
            | some q => exact hrw q admin
    · dsimp only
      rw [if_pos hv, if_pos hv]
      exact ⟨rfl, rfl⟩

/-- C8: a migration failure is non-fatal and non-reverting.  Running restore
with a failing migration yields the same success flag and the same final world
(database and avatar replacement are not undone, failure is not returned
because of the migration) as the identical run with a succeeding migration;
and any successful run with a failing migration records migrations_run = false
together with the migration failure message (possibly extended by the
legacy-key note) in its details. -/
theorem restore_migration_nonfatal (w : World) (env : Env)
    (file : UploadedFile) (password current_user_id : Option String)
    (mmsg okmsg : String) :
    ((perform_restore w {env with migrationResult := (false, mmsg)} file
        password current_user_id).successFlag
      = (perform_restore w {env with migrationResult := (true, okmsg)} file
        password current_user_id).successFlag) ∧
    ((perform_restore w {env with migrationResult := (false, mmsg)} file
        password current_user_id).resultWorld
      = (perform_restore w {env with migrationResult := (true, okmsg)} file
        password current_user_id).resultWorld) ∧
    (∀ (m : String) (d : Details) (w1 : World),
      perform_restore w {env with migrationResult := (false, mmsg)} file
          password current_user_id = .ret true m d w1 →
      d.migrations_run = false ∧
      (d.migrations_message = mmsg ∨ d.migrations_message = mmsg ++ legacyNote)) := by
  refine ⟨(perform_restore_migration_independent w env (false, mmsg) (true, okmsg)
      file password current_user_id).1,
    (perform_restore_migration_independent w env (false, mmsg) (true, okmsg)
      file password current_user_id).2, ?_⟩
  intro m d w1 h
  rcases perform_restore_shape w {env with migrationResult := (false, mmsg)}
      file password current_user_id with ⟨m2, hm⟩ | ⟨p, admin, _, _, hr⟩
  · rw [hm] at h
    exact absurd h (by simp)
  · rw [hr] at h
    exact restoreWithPayload_details w _ p admin m d w1 h

theorem restore_migration_nonfatal_witness :
    ((perform_restore liveWorld0
        {env0 with migrationResult := (false, ("Migration failed: boom"))}
        goodFile0 none (some ("a1"))).successFlag
      = (perform_restore liveWorld0
        {env0 with migrationResult := (true, ("ok"))}
        goodFile0 none (some ("a1"))).successFlag) ∧
    (∃ (m : String) (d : Details) (w1 : World),
      perform_restore liveWorld0
          {env0 with migrationResult := (false, ("Migration failed: boom"))}
          goodFile0 none (some ("a1")) = .ret true m d w1 ∧
      d.migrations_run = false ∧
      (d.migrations_message = ("Migration failed: boom") ∨
        d.migrations_message = ("Migration failed: boom") ++ legacyNote)) := by
  have hth := restore_migration_nonfatal liveWorld0 env0 goodFile0 none
    (some ("a1")) ("Migration failed: boom") ("ok")
  refine ⟨hth.1, ?_⟩
  have hflag : (perform_restore liveWorld0
      {env0 with migrationResult := (false, ("Migration failed: boom"))}
      goodFile0 none (some ("a1"))).successFlag = true := by rfl
  cases hout : perform_restore liveWorld0
      {env0 with migrationResult := (false, ("Migration failed: boom"))}
      goodFile0 none (some ("a1")) with
  | raised w1 =>
    rw [hout] at hflag
    exact absurd hflag (by simp [Outcome.successFlag])
  | ret s m d w1 =>
    rw [hout] at hflag
    have hs : s = true := by simpa [Outcome.successFlag] using hflag
    subst hs
    exact ⟨m, d, w1, rfl, hth.2.2 m d w1 hout⟩

theorem importStep_fold_preserves (admin_id secretKey : String)
    (configs : List ConfigExport) :
    ∀ acc : Database × Nat,
      (configs.foldl (importStep admin_id secretKey) acc).1.users = acc.1.users ∧
      (configs.foldl (importStep admin_id secretKey) acc).1.sessions = acc.1.sessions ∧
      (configs.foldl (importStep admin_id secretKey) acc).1.events = acc.1.events := by
  induction configs with
  | nil => intro acc; exact ⟨rfl, rfl, rfl⟩
  | cons c cs ih =>
    intro acc
    rw [List.foldl_cons]
    have hstep : (importStep admin_id secretKey acc c).1.users = acc.1.users ∧
        (importStep admin_id secretKey acc c).1.sessions = acc.1.sessions ∧
        (importStep admin_id secretKey acc c).1.events = acc.1.events := by
      unfold importStep
      repeat' split
      all_goals exact ⟨rfl, rfl, rfl⟩
    obtain ⟨h1, h2, h3⟩ := ih (importStep admin_id secretKey acc c)
    exact ⟨h1.trans hstep.1, h2.trans hstep.2.1, h3.trans hstep.2.2⟩

theorem import_preserves_users (db : Database) (configs : List ConfigExport)
    (admin_id secretKey : String) :
    (_import_integration_configs db configs admin_id secretKey).1.users
        = db.users ∧
    (_import_integration_configs db configs admin_id secretKey).1.sessions
        = db.sessions ∧
    (_import_integration_configs db configs admin_id secretKey).1.events
        = db.events := by
  unfold _import_integration_configs
  exact importStep_fold_preserves admin_id secretKey configs _

theorem restoreWithPayload_admin_success (w : World) (env : Env) (p : Payload)
    (a : UserRow) (m : String) (d : Details) (w1 : World)
    (h : restoreWithPayload w env p (some a) = .ret true m d w1) :
    ∃ (t : TarGz) (nm : String) (c : BackupDirContents)
      (rest : List (String × BackupDirContents)) (f : DbFile),
      p = .tar t ∧ t.topDirs = (nm, c) :: rest ∧ c.dbFile = some f ∧
      (∀ e ∈ w1.eventRows, e.user_id = a.id) ∧
      (∀ r ∈ w1.configRows, r.created_by = a.id) ∧
      a.id ∈ w1.userRows.map (fun u => u.id) ∧
      (f.db.users = [] → w1.userRows.map (fun u => u.id) = [a.id]) := by
  unfold restoreWithPayload at h
  cases hs : env.snapshotOk with
  | false =>
    simp only [hs, Bool.false_eq_true, not_false_eq_true, if_true] at h
    exact absurd h (by simp)
  | true =>
    simp only [hs, not_true_eq_false, Bool.false_eq_true, if_false] at h
    cases p with
    | corrupt => exact absurd h (by simp)
    | tar t =>
      dsimp only at h
      rcases htop : t.topDirs with _ | ⟨⟨nm, c⟩, rest⟩ <;> rw [htop] at h
      · exact absurd h (by simp)
      · dsimp only at h
        cases hdbf : c.dbFile with
        | none =>
          rw [hdbf] at h
          exact absurd h (by simp)
        | some f =>
          rw [hdbf] at h
          refine ⟨t, nm, c, rest, f, rfl, htop, hdbf, ?_⟩
          dsimp only at h
          by_cases hemp : (c.configsJson.getD []).isEmpty = true
          · simp only [if_pos hemp] at h
            by_cases hdup : (f.db.users.any (fun u =>
                u.id == a.id || u.username == a.username || u.email == a.email)) = true
            · simp only [if_pos hdup] at h
              exact absurd h (by simp)
            · simp only [if_neg hdup] at h
              injection h
              subst_vars
              refine ⟨?_, ?_, ?_, ?_⟩
              · intro e he
                simp only [World.eventRows] at he
                rw [List.mem_map] at he
                obtain ⟨e0, _, rfl⟩ := he
                rfl
              · intro r hr
                simp only [World.configRows] at hr
                rw [List.mem_map] at hr
                obtain ⟨r0, _, rfl⟩ := hr
                rfl
              · simp [World.userRows]
              · intro hu
                simp [World.userRows, hu]
          · simp only [if_neg hemp] at h
            by_cases hdup : ((_import_integration_configs f.db
                (c.configsJson.getD []) a.id env.secretKey).1.users.any (fun u =>
                u.id == a.id || u.username == a.username || u.email == a.email)) = true
            · simp only [if_pos hdup] at h
              exact absurd h (by simp)
            · simp only [if_neg hdup] at h
              injection h
              subst_vars
              have hiu := (import_preserves_users f.db (c.configsJson.getD [])
                a.id env.secretKey).1
              refine ⟨?_, ?_, ?_, ?_⟩
              · intro e he
                simp only [World.eventRows] at he
                rw [List.mem_map] at he
                obtain ⟨e0, _, rfl⟩ := he
                rfl
              · intro r hr
                simp only [World.configRows] at hr
                rw [List.mem_map] at hr
                obtain ⟨r0, _, rfl⟩ := hr
                rfl
              · simp [World.userRows]
              · intro hu
                simp [World.userRows, hiu, hu]

/-- C4 counterexample: restoring a valid legacy archive whose database still
contains a foreign user row succeeds, and the restored users table then holds
two rows (the foreign one and the re-inserted admin) — perform_restore never
deletes the users carried by the archive, so "exactly one user row" fails. -/
theorem restore_keeps_foreign_users :
    (perform_restore liveWorld0 env0 legacyUserFile0 none
        (some ("a1"))).successFlag = true ∧
    ((perform_restore liveWorld0 env0 legacyUserFile0 none
        (some ("a1"))).resultWorld.userRows.map (fun u => u.id))
      = ["u9", "a1"] :=
  ⟨rfl, rfl⟩

/-- C4 (amended): for every restore call with current_user_id = admin_id that
returns success, the admin row was captured from the live database (its id
equals admin_id), every event row of the restored database has user_id =
admin_id, every integration-config row has created_by = admin_id, and a user
row with id admin_id is present; when moreover the archive database's users
table is empty — as it is for every archive produced by create_backup — the
users table of the restored database consists of exactly that one row. -/
theorem restore_identity_continuity (w : World) (env : Env)
    (file : UploadedFile) (password : Option String) (uid : String)
    (m : String) (d : Details) (w1 : World)
    (hres : perform_restore w env file password (some uid) = .ret true m d w1) :
    ∃ a : UserRow, _get_user_data w uid = some a ∧ a.id = uid ∧
      (∀ e ∈ w1.eventRows, e.user_id = a.id) ∧
      (∀ r ∈ w1.configRows, r.created_by = a.id) ∧
      a.id ∈ w1.userRows.map (fun u => u.id) ∧
      (∀ (t : TarGz) (nm : String) (c : BackupDirContents)
          (rest : List (String × BackupDirContents)) (f : DbFile),
        decryptedPayload file password = some (.tar t) →
        t.topDirs = (nm, c) :: rest → c.dbFile = some f →
        f.db.users = [] → w1.userRows.map (fun u => u.id) = [a.id]) := by
  rcases perform_restore_shape w env file password (some uid) with
    ⟨m2, hm⟩ | ⟨p, admin, hadm, hdec, hr⟩
  · rw [hm] at hres
    exact absurd hres (by simp)
  · rw [hr] at hres
    unfold adminLookup at hadm
    dsimp only at hadm
    cases hga : _get_user_data w uid with
    | none =>
      rw [hga] at hadm
      exact absurd hadm (by simp)
    | some a =>
      rw [hga] at hadm
      have hadm2 : admin = some a := by
        injection hadm with h1
        exact h1.symm
      subst hadm2
      obtain ⟨t0, nm0, c0, rest0, f0, hp, htop0, hdbf0, he, hc, hmem, hempty⟩ :=
        restoreWithPayload_admin_success w env p a m d w1 hres
      have haid : a.id = uid := by
        unfold _get_user_data at hga
        cases hldb : w.liveDb with
        | none =>
          rw [hldb] at hga
          exact absurd hga (by simp)
        | some lf =>
          rw [hldb] at hga
          have hfind := List.find?_some hga
          simpa using hfind
      refine ⟨a, rfl, haid, he, hc, hmem, ?_⟩
      intro t nm c rest f hdecp htop hdbf hu
      rw [hdec] at hdecp
      have hpt : p = .tar t := by
        injection hdecp
      rw [hp] at hpt
      have ht : t0 = t := by
        injection hpt
      subst ht
      rw [htop0] at htop
      injection htop with hhd htl
      injection hhd with hnm hc0
      rw [← hc0] at hdbf
      rw [hdbf0] at hdbf
      have hf : f0 = f := by
        injection hdbf
      subst hf
      exact hempty hu

theorem restore_identity_continuity_witness :
    ∃ a : UserRow, _get_user_data liveWorld0 ("a1") = some a ∧ a.id = "a1" ∧
      (∀ e ∈ (perform_restore liveWorld0 env0 goodFile0 none
          (some ("a1"))).resultWorld.eventRows, e.user_id = a.id) ∧
      (∀ r ∈ (perform_restore liveWorld0 env0 goodFile0 none
          (some ("a1"))).resultWorld.configRows, r.created_by = a.id) ∧
      a.id ∈ (perform_restore liveWorld0 env0 goodFile0 none
          (some ("a1"))).resultWorld.userRows.map (fun u => u.id) ∧
      (∀ (t : TarGz) (nm : String) (c : BackupDirContents)
          (rest : List (String × BackupDirContents)) (f : DbFile),
        decryptedPayload goodFile0 none = some (.tar t) →
        t.topDirs = (nm, c) :: rest → c.dbFile = some f →
        f.db.users = [] →
        (perform_restore liveWorld0 env0 goodFile0 none
          (some ("a1"))).resultWorld.userRows.map (fun u => u.id) = [a.id]) := by
  have hflag : (perform_restore liveWorld0 env0 goodFile0 none
      (some ("a1"))).successFlag = true := by rfl
  cases hout : perform_restore liveWorld0 env0 goodFile0 none (some ("a1")) with
  | raised w1 =>
    rw [hout] at hflag
    exact absurd hflag (by simp [Outcome.successFlag])
  | ret s m d w1 =>
    rw [hout] at hflag
    have hs : s = true := by simpa [Outcome.successFlag] using hflag
    subst hs
    obtain ⟨a, h1, h2, h3, h4, h5, h6⟩ :=
      restore_identity_continuity liveWorld0 env0 goodFile0 none ("a1")
        m d w1 hout
    exact ⟨a, h1, h2, h3, h4, h5, h6⟩

/-- C6: perform_restore executes no `DELETE FROM sessions` (the session
deletion only exists in the dead function `_preserve_admin_user`, which nothing
calls), so a session row carried inside a legacy archive survives a successful
restore: the claim that every successful restore leaves the sessions table
empty fails on this input.  Evaluated at the failing input: a valid plain
archive whose sessions table holds row s1. -/
theorem restore_leaves_archive_sessions :
    (perform_restore liveWorld0 env0 sessFile0 none
        (some ("a1"))).successFlag = true ∧
    (perform_restore liveWorld0 env0 sessFile0 none
        (some ("a1"))).resultWorld.sessionRows = [⟨"s1", "uX"⟩] :=
  ⟨rfl, rfl⟩

/-- The session-clearing step exists only in `_preserve_admin_user`, which is
dead code: had it been called on the restored database it would have left the
sessions table empty, matching the specified behavior. -/
theorem preserve_admin_user_clears_sessions (db : Database) (admin : UserRow)
    (now : String) :
    (_preserve_admin_user db admin now).sessions = []
      ∧ (_preserve_admin_user db admin now).users.map (fun u => u.id)
        = [admin.id] := by
  unfold _preserve_admin_user
  exact ⟨rfl, rfl⟩

theorem sqlite_header_ok :
    sqliteHeaderLit.isPrefixOf (sqliteFileHeader.take 16) = true := by
  decide

theorem create_backup_payload_spec (w : World) (live : DbFile)
    (username secretKey now : String) (hdb : w.liveDb = some live) :
    ∃ (nm : String) (c : BackupDirContents) (f : DbFile),
      (create_backup_payload w username secretKey now).topDirs = [(nm, c)] ∧
      c.dbFile = some f ∧
      f = dbFileOf {live.db with users := [], sessions := []} ∧
      (match c.manifest with | none => none | some md => md.secret_key) = none ∧
      c.configsJson = some (_export_integration_configs
        {live.db with users := [], sessions := []} secretKey) := by
  unfold create_backup_payload
  rw [hdb]
  exact ⟨_, _, _, rfl, rfl, rfl, rfl, rfl⟩

theorem validate_payload_ok (e : Bool) (t : TarGz) (now : String)
    (nm : String) (c : BackupDirContents)
    (rest : List (String × BackupDirContents)) (f : DbFile)
    (hsafe : t.memberNames.any unsafeMemberName = false)
    (htop : t.topDirs = (nm, c) :: rest) (hdbf : c.dbFile = some f)
    (hhdr : sqliteHeaderLit.isPrefixOf (f.header.take 16) = true) :
    (validate_payload e (.tar t) now).1 = true := by
  unfold validate_payload
  simp only [hsafe, Bool.false_eq_true, if_false]
  rw [htop]
  dsimp only
  rw [hdbf]
  dsimp only
  simp only [hhdr, if_true]

theorem restoreWithPayload_none_admin (w2 : World) (env : Env) (t : TarGz)
    (nm : String) (c : BackupDirContents)
    (rest : List (String × BackupDirContents)) (f : DbFile)
    (hsnap : env.snapshotOk = true)
    (htop : t.topDirs = (nm, c) :: rest)
    (hdbf : c.dbFile = some f)
    (hsk : (match c.manifest with | none => none | some md => md.secret_key) = none) :
    ∃ w1 : World, restoreWithPayload w2 env (.tar t) none
        = .ret true restoreDoneMsg
            ⟨env.migrationResult.1, env.migrationResult.2, 0⟩ w1 ∧
      w1.liveDb = some f := by
  unfold restoreWithPayload
  simp only [hsnap, not_true_eq_false, Bool.false_eq_true, if_false]
  try dsimp only
  rw [htop]
  try dsimp only
  rw [hdbf]
  try dsimp only
  rw [hsk]
  cases hav : c.avatars with
  | some fs => exact ⟨_, rfl, rfl⟩
  | none =>
    cases hw2a : w2.avatarDir with
    | some fs2 => exact ⟨_, rfl, rfl⟩
    | none => exact ⟨_, rfl, rfl⟩

/-- C10: calling perform_restore with current_user_id = none does not fail for
that reason; the admin lookup, reinsertion, foreign-key repointing and
config import are all skipped, so restoring an archive freshly produced by
create_backup (its users stripped) succeeds with configs_imported = 0 and a
restored database containing zero user rows and zero session rows. -/
theorem restore_skips_identity_without_user (w w2 : World) (env : Env)
    (live : DbFile) (username password secretKey now : String)
    (salt : List Nat)
    (hdb : w.liveDb = some live)
    (hsafe : (create_backup_payload w username secretKey now).memberNames.any
      unsafeMemberName = false)
    (hsnap : env.snapshotOk = true)
    (hpw : password ≠ "") :
    ∃ (d : Details) (w1 : World),
      perform_restore w2 env
          (create_backup w username password secretKey now salt).1.1
          (some password) none
        = .ret true restoreDoneMsg d w1 ∧
      d.configs_imported = 0 ∧
      w1.userRows = [] ∧
      w1.sessionRows = [] := by
  obtain ⟨nm, c, f, htop, hdbf, hfeq, hsk, hcj⟩ :=
    create_backup_payload_spec w live username secretKey now hdb
  have hhdr : sqliteHeaderLit.isPrefixOf (f.header.take 16) = true := by
    rw [hfeq]
    exact sqlite_header_ok
  have h2 : try_decrypt_upload salt (derive_key_from_password password salt)
      (.tar (create_backup_payload w username secretKey now)) password
      = some (.tar (create_backup_payload w username secretKey now)) := by
    unfold try_decrypt_upload
    rw [if_pos rfl]
  have h1 : validate_backup_upload
      (.encrypted salt (derive_key_from_password password salt)
        (.tar (create_backup_payload w username secretKey now)))
      (some password) env.now
      = if password = "" then
          (false,
            "This backup is password-protected. Please provide the password.",
            some Metadata.passwordRequired, [])
        else
          match try_decrypt_upload salt (derive_key_from_password password salt)
              (.tar (create_backup_payload w username secretKey now)) password with
          | some q => validate_payload true q env.now
          | none => (false, "Invalid password or corrupted backup", none, []) :=
    rfl
  have hval : (validate_backup_upload
      (.encrypted salt (derive_key_from_password password salt)
        (.tar (create_backup_payload w username secretKey now)))
      (some password) env.now).1 = true := by
    rw [h1, if_neg hpw, h2]
    exact validate_payload_ok true _ env.now nm c [] f hsafe htop hdbf hhdr
  obtain ⟨w1, hrest, hw1⟩ :=
    restoreWithPayload_none_admin w2 env
      (create_backup_payload w username secretKey now) nm c [] f hsnap htop
      hdbf hsk
  refine ⟨⟨env.migrationResult.1, env.migrationResult.2, 0⟩, w1, ?_, rfl, ?_, ?_⟩
  · have h3 : perform_restore w2 env
        (.encrypted salt (derive_key_from_password password salt)
          (.tar (create_backup_payload w username secretKey now)))
        (some password) none
        = if ¬ (validate_backup_upload
              (.encrypted salt (derive_key_from_password password salt)
                (.tar (create_backup_payload w username secretKey now)))
              (some password) env.now).1 = true then
            .ret false (validate_backup_upload
              (.encrypted salt (derive_key_from_password password salt)
                (.tar (create_backup_payload w username secretKey now)))
              (some password) env.now).2.1 ⟨false, "", 0⟩ w2
          else if password = "" then
            .ret false ("Password required for encrypted backup") ⟨false, "", 0⟩ w2
          else
            match try_decrypt_upload salt
                (derive_key_from_password password salt)
                (.tar (create_backup_payload w username secretKey now))
                password with
            | none =>
              .ret false ("Invalid password or corrupted backup") ⟨false, "", 0⟩ w2
            | some q => restoreWithPayload w2 env q none :=
      rfl
    show perform_restore w2 env
        (.encrypted salt (derive_key_from_password password salt)
          (.tar (create_backup_payload w username secretKey now)))
        (some password) none = _
    rw [h3, if_neg (by simp [hval]), if_neg hpw, h2]
    exact hrest
  · simp [World.userRows, hw1, hfeq, dbFileOf]
  · simp [World.sessionRows, hw1, hfeq, dbFileOf]

theorem restore_skips_identity_without_user_witness :
    ∃ (d : Details) (w1 : World),
      perform_restore liveWorld0 env0
          (create_backup liveWorld0 ("admin") ("pw") ("sk") ("T") []).1.1
          (some ("pw")) none
        = .ret true restoreDoneMsg d w1 ∧
      d.configs_imported = 0 ∧
      w1.userRows = [] ∧
      w1.sessionRows = [] :=
  restore_skips_identity_without_user liveWorld0 liveWorld0 env0
    (dbFileOf liveDb0) ("admin") ("pw") ("sk") ("T") [] rfl (by decide) rfl
    (by decide)

end TravelBackup
